import Mathlib

/-
Verification of the CNCWorkflowAutomation repository: a single-pass script
that fetches CNC part rows from a tabular service (Grist), checks for a
local DXF file, uploads it to an S3-compatible object store (MinIO) and
writes the status back to the row.

The embedding below models the two Python revisions:
  - src/upload_dxf_to_minio.py       (main revision, with sanitization)
  - src/unnamed/part_000             (earlier revision "upload_dxf_to_minio - Copy.py")

Python strings are modelled as List Char; the stateful row loop is modelled
as a pure step function producing an explicit trace of side effects
(upload attempts and PATCH write-backs) plus a flag recording whether an
uncaught exception escaped the loop body.
-/

namespace CNCW

/-- Python strings, modelled as lists of characters. -/
abbrev Str := List Char

/-- Coerce a Lean string literal to the List Char model. -/
def str (s : String) : Str := s.toList

/-- Whitespace characters recognised by Python str.strip() (ASCII range). -/
def isPyWs (c : Char) : Bool :=
  c == ' ' || c == '\t' || c == '\n' || c == '\r' || c == '\x0b' || c == '\x0c'

/-- The character class kept by the regex [^A-Za-z0-9\-_] in
sanitize_folder_name (src/upload_dxf_to_minio.py line 132). -/
def isAllowedChar (c : Char) : Bool :=
  c.isAlphanum || c == '-' || c == '_'

/-- Python two-sided strip: drop characters satisfying p from both ends
(str.strip() / str.strip(chars)). -/
def pyStrip (p : Char → Bool) (s : Str) : Str :=
  ((s.dropWhile p).reverse.dropWhile p).reverse

/-- Collapse every run of two or more copies of t into a single copy,
as re.sub(t+, t, s) does for a single character t. -/
def collapseRuns (t : Char) : Str → Str
  | [] => []
  | [c] => [c]
  | a :: b :: r =>
    if a == t && b == t then collapseRuns t (b :: r)
    else a :: collapseRuns t (b :: r)

/-- sanitize_folder_name from src/upload_dxf_to_minio.py lines 119-136:
empty guard, strip surrounding whitespace, spaces to hyphens, characters
outside [A-Za-z0-9_-] to underscore, collapse runs of underscores, then
runs of hyphens, finally strip leading/trailing underscores and hyphens. -/
def sanitize_folder_name (name : Str) : Str :=
  if name = [] then []
  else
    let n1 := pyStrip isPyWs name
    let n2 := n1.map fun c => if c == ' ' then '-' else c
    let n3 := n2.map fun c => if isAllowedChar c then c else '_'
    let n4 := collapseRuns '_' n3
    let n5 := collapseRuns '-' n4
    pyStrip (fun c => c == '_' || c == '-') n5

/-- Upper-case hexadecimal digit for n < 16, as used by urllib percent
encoding. -/
def hexUpper (n : Nat) : Char :=
  if n < 10 then Char.ofNat (48 + n) else Char.ofNat (55 + n)

/-- UTF-8 byte sequence of one code point, as Python encodes characters
before percent-encoding them. -/
def utf8Bytes (c : Char) : List Nat :=
  let n := c.toNat
  if n < 128 then [n]
  else if n < 2048 then [192 + n / 64, 128 + n % 64]
  else if n < 65536 then [224 + n / 4096, 128 + n / 64 % 64, 128 + n % 64]
  else [240 + n / 262144, 128 + n / 4096 % 64, 128 + n / 64 % 64, 128 + n % 64]

/-- Characters urllib.parse.quote leaves unescaped with the default
safe characters: ALWAYS_SAFE (alphanumerics and _.-~) plus the slash. -/
def quoteSafeChar (c : Char) : Bool :=
  c.isAlphanum || c == '_' || c == '.' || c == '-' || c == '~' || c == '/'

/-- urllib.parse.quote with default arguments, used at line 209 of
src/upload_dxf_to_minio.py to URL-encode the destination key. -/
def pyQuote (s : Str) : Str :=
  s.flatMap fun c =>
    if quoteSafeChar c then [c]
    else (utf8Bytes c).flatMap fun b => ['%', hexUpper (b / 16), hexUpper (b % 16)]

/-- os.path.join on POSIX for two components, as used for
local_path = os.path.join(folder, filename). -/
def ospath_join (a b : Str) : Str :=
  if b.head? = some '/' then b
  else if a = [] then b
  else if a.getLast? = some '/' then a ++ b
  else a ++ '/' :: b

/-- The fields of one CNCPartsMaster row, as read by process_parts.
Absent columns are none.  Model of the dict lookups at lines 153-161 of
src/upload_dxf_to_minio.py (identical at lines 154-162 of
src/unnamed/part_000).  Column names: Ready, Upload_to_Minio,
Upload_Status, DXF_Filename, FolderPath, Thickness, CNCProductPrefix. -/
structure RowFields where
  ready : Option Int
  uploadFlag : Option Str
  uploadStatus : Option Str
  filename : Option Str
  folderPath : Option Str
  thickness : Option Str
  productPfx : Option Str
  deriving DecidableEq

/-- upload_flag = str(f.get("Upload_to_Minio", "")).lower(). -/
def flagLower (f : RowFields) : Str := (f.uploadFlag.getD []).map Char.toLower

/-- upload_status = (f.get("Upload_Status") or "").lower(). -/
def statusLower (f : RowFields) : Str := (f.uploadStatus.getD []).map Char.toLower

/-- product_prefix = (f.get("CNCProductPrefix") or "").strip(). -/
def prodPfxOf (f : RowFields) : Str := pyStrip isPyWs (f.productPfx.getD [])

/-- Python falsiness of an optional string: None or the empty string. -/
def pyFalsyStr : Option Str → Bool
  | none => true
  | some s => s.isEmpty

/-- Python str() on an optional value: str(None) is the four-letter
string None, otherwise the string itself (used on the Thickness field). -/
def pyStrOfOpt : Option Str → Str
  | none => str "None"
  | some s => s

/-- The field map sent by one grist_update_row PATCH: Upload_Status is
always present, MinioPath only on success, UploadedOn present with either
a timestamp or null. -/
structure GristFields where
  uploadStatus : Str
  minioPath : Option Str
  uploadedOn : Option Str
  deriving DecidableEq

/-- Fields written back on success (lines 214-218 of the main revision):
the public URL and the ISO-8601 timestamp of now. -/
def successFields (url now : Str) : GristFields :=
  ⟨ str "Success", some url, some now⟩

/-- Fields written back when the upload (or, in the main revision, the
success PATCH) raised: Upload_Status Failed, UploadedOn null. -/
def failedFields : GristFields := ⟨ str "Failed", none, none⟩

/-- Fields written back when the local file is missing. -/
def fnfFields : GristFields := ⟨ str "File Not Found", none, none⟩

/-- One observable side effect of the row loop: an fput_object call
(bucket, destination key, local path) or a grist_update_row PATCH. -/
inductive Eff where
  | uploadAttempt (bucket key localPath : Str)
  | patch (rowId : Int) (fields : GristFields)
  deriving DecidableEq

/-- Result of running the loop body on one row (or a whole run): the
ordered trace of attempted side effects, and whether an uncaught
exception escaped. -/
structure RowOutcome where
  effs : List Eff
  raised : Bool
  deriving DecidableEq

/-- Behaviour of the outside world during a run: whether a local path is
an existing regular file, whether an fput_object call raises, and whether
a PATCH raises. -/
structure Env where
  isFile : Str → Bool
  uploadRaises : Str → Str → Bool
  patchRaises : Int → GristFields → Bool

/-- local_path = os.path.join(folder, filename). -/
def localPathOf (f : RowFields) : Str :=
  ospath_join (f.folderPath.getD []) (f.filename.getD [])

/-- minio_path = f-string DXF/safe_product/safe_thk/filename
(lines 198-202 of the main revision). -/
def destKeyOf (f : RowFields) : Str :=
  str "DXF/" ++ sanitize_folder_name (prodPfxOf f) ++ str "/" ++
    sanitize_folder_name (pyStrOfOpt f.thickness) ++ str "/" ++ f.filename.getD []

/-- minio_url = http://ENDPOINT/BUCKET/quote(minio_path) (line 210). -/
def urlOf (endpoint bucket : Str) (f : RowFields) : Str :=
  str "http://" ++ endpoint ++ str "/" ++ bucket ++ str "/" ++ pyQuote (destKeyOf f)

/-- Lines 185-227 of src/upload_dxf_to_minio.py, after the skip rules:
file check with File Not Found write-back, then the try block holding the
upload, the URL construction and the success PATCH, whose except clause
logs and issues the Failed PATCH.  A PATCH that raises is recorded in the
trace (the HTTP call was made) and sets raised unless a handler catches
it: the success PATCH sits inside the try, so its exception falls into
the except clause and triggers the Failed PATCH; the File Not Found PATCH
and the Failed PATCH have no handler around them. -/
def process_eligible_row (env : Env) (endpoint bucket now : Str)
    (rowId : Int) (f : RowFields) : RowOutcome :=
  if env.isFile (localPathOf f) = false then
    ⟨[Eff.patch rowId fnfFields], env.patchRaises rowId fnfFields⟩
  else if env.uploadRaises (destKeyOf f) (localPathOf f) = true then
    ⟨[Eff.uploadAttempt bucket (destKeyOf f) (localPathOf f),
      Eff.patch rowId failedFields], env.patchRaises rowId failedFields⟩
  else if env.patchRaises rowId (successFields (urlOf endpoint bucket f) now) = true then
    ⟨[Eff.uploadAttempt bucket (destKeyOf f) (localPathOf f),
      Eff.patch rowId (successFields (urlOf endpoint bucket f) now),
      Eff.patch rowId failedFields], env.patchRaises rowId failedFields⟩
  else
    ⟨[Eff.uploadAttempt bucket (destKeyOf f) (localPathOf f),
      Eff.patch rowId (successFields (urlOf endpoint bucket f) now)], false⟩

/-- The loop body of process_parts in src/upload_dxf_to_minio.py
(lines 148-227): the five skip rules in source order, then the file
check / upload / write-back stage. -/
def process_row (env : Env) (endpoint bucket now : Str)
    (rowId : Int) (f : RowFields) : RowOutcome :=
  if f.ready ≠ some 1 then ⟨[], false⟩
  else if flagLower f ∉ [ str "yes", str "y", str "true"] then ⟨[], false⟩
  else if statusLower f = str "success" then ⟨[], false⟩
  else if pyFalsyStr f.filename = true ∨ pyFalsyStr f.folderPath = true then ⟨[], false⟩
  else if prodPfxOf f = [] then ⟨[], false⟩
  else process_eligible_row env endpoint bucket now rowId f

/-- The loop body of process_parts in src/unnamed/part_000
(lines 150-220).  The skip rules and the file check are the same; at
line 197 the f-string for minio_path references safe_thk, a name that is
bound nowhere in that file, so reaching it raises NameError before any
upload or write-back: the trace is empty and the exception escapes. -/
def process_row_copy (env : Env) (rowId : Int) (f : RowFields) : RowOutcome :=
  if f.ready ≠ some 1 then ⟨[], false⟩
  else if flagLower f ∉ [ str "yes", str "y", str "true"] then ⟨[], false⟩
  else if statusLower f = str "success" then ⟨[], false⟩
  else if pyFalsyStr f.filename = true ∨ pyFalsyStr f.folderPath = true then ⟨[], false⟩
  else if prodPfxOf f = [] then ⟨[], false⟩
  else if env.isFile (localPathOf f) = false then
    ⟨[Eff.patch rowId fnfFields], env.patchRaises rowId fnfFields⟩
  else ⟨[], true⟩

/-- The for-loop over fetched rows: an uncaught exception in a row body
aborts the run (it propagates to the entrypoint); otherwise the traces
concatenate in order. -/
def run_rows (step : Int → RowFields → RowOutcome) : List (Int × RowFields) → RowOutcome
  | [] => ⟨[], false⟩
  | (rid, f) :: rest =>
    let o := step rid f
    if o.raised then o
    else
      let k := run_rows step rest
      ⟨o.effs ++ k.effs, k.raised⟩

/-- process_parts of src/upload_dxf_to_minio.py, given the fetched rows. -/
def process_parts (env : Env) (endpoint bucket now : Str)
    (rows : List (Int × RowFields)) : RowOutcome :=
  run_rows (process_row env endpoint bucket now) rows

/-- process_parts of src/unnamed/part_000, given the fetched rows. -/
def process_parts_copy (env : Env) (rows : List (Int × RowFields)) : RowOutcome :=
  run_rows (process_row_copy env) rows

/-- The conjunction of the five skip rules failing to fire: such a row
proceeds to the file check (mirrors lines 166-180 of the main revision). -/
def eligible (f : RowFields) : Prop :=
  f.ready = some 1 ∧
  flagLower f ∈ [ str "yes", str "y", str "true"] ∧
  statusLower f ≠ str "success" ∧
  pyFalsyStr f.filename = false ∧
  pyFalsyStr f.folderPath = false ∧
  prodPfxOf f ≠ []

instance (f : RowFields) : Decidable (eligible f) := by
  unfold eligible; infer_instance

/-- A fully eligible row matching the spec success scenario: ready flag 1,
upload requested, blank status, file part.dxf in /data, thickness 3mm,
product family Bracket A. -/
def rowOk : RowFields :=
  ⟨some 1, some (str "yes"), some [], some (str "part.dxf"),
    some (str "/data"), some (str "3mm"), some (str "Bracket A")⟩

/-- rowOk with a null Thickness column. -/
def rowOkNoThk : RowFields :=
  ⟨some 1, some (str "yes"), some [], some (str "part.dxf"),
    some (str "/data"), none, some (str "Bracket A")⟩

/-- rowOk with the Ready flag set to 0 instead of 1. -/
def rowNotReady : RowFields :=
  ⟨some 0, some (str "yes"), some [], some (str "part.dxf"),
    some (str "/data"), some (str "3mm"), some (str "Bracket A")⟩

/-- rowOk already marked Success from an earlier run. -/
def rowDone : RowFields :=
  ⟨some 1, some (str "yes"), some (str "Success"), some (str "part.dxf"),
    some (str "/data"), some (str "3mm"), some (str "Bracket A")⟩

/-- A world where the local file exists and no network call raises. -/
def envAllOk : Env := ⟨fun _ => true, fun _ _ => false, fun _ _ => false⟩

/-- A world where the local file is missing and no call raises. -/
def envNoFile : Env := ⟨fun _ => false, fun _ _ => false, fun _ _ => false⟩

/-- A world where the file exists but every fput_object call raises. -/
def envUploadRaises : Env := ⟨fun _ => true, fun _ _ => true, fun _ _ => false⟩

/-- A world where the file exists, uploads succeed, and exactly the
PATCH calls carrying Upload_Status Success raise. -/
def envPatchSuccessRaises : Env :=
  ⟨fun _ => true, fun _ _ => false, fun _ flds => flds.uploadStatus == str "Success"⟩

/-- A world where the local file is missing and every PATCH raises. -/
def envNoFilePatchRaises : Env := ⟨fun _ => false, fun _ _ => false, fun _ _ => true⟩

/-- No two adjacent occurrences of the character t anywhere in the list:
the no-runs property the spec ascribes to sanitizer output. -/
def noDouble (t : Char) : Str → Bool
  | [] => true
  | [_] => true
  | a :: b :: r => (!(a == t && b == t)) && noDouble t (b :: r)

/-- Modelled from the spec: the sanitizer as the C2 claim words it,
with every interior whitespace character (not only the space) replaced
by a hyphen before the character-class replacement.  Kept for comparison
with sanitize_folder_name, which only maps the space character. -/
def sanitizeClaimC2 (name : Str) : Str :=
  pyStrip (fun c => c == '_' || c == '-')
    (collapseRuns '-' (collapseRuns '_'
      (((pyStrip isPyWs name).map fun c => if isPyWs c then '-' else c).map
        fun c => if isAllowedChar c then c else '_')))

/-- The amended spec pipeline: trim surrounding whitespace, replace
interior spaces with hyphens, replace every other character outside the
permitted set (other whitespace included) with an underscore, collapse
runs, strip leading and trailing underscores and hyphens. -/
def sanitizeSpecSpace (name : Str) : Str :=
  pyStrip (fun c => c == '_' || c == '-')
    (collapseRuns '-' (collapseRuns '_'
      (((pyStrip isPyWs name).map fun c => if c == ' ' then '-' else c).map
        fun c => if isAllowedChar c then c else '_')))

example : sanitize_folder_name (str "Bracket A") = str "Bracket-A" := by decide
example : sanitize_folder_name (str "3mm") = str "3mm" := by decide
example : sanitize_folder_name (str "  a!!b  ") = str "a_b" := by decide
example : sanitize_folder_name (str "_-x-_") = str "x" := by decide
example : pyQuote (str "DXF/Bracket-A/3mm/part.dxf") = str "DXF/Bracket-A/3mm/part.dxf" := by decide
example : pyQuote (str "a b") = str "a%20b" := by decide
example : ospath_join (str "/tmp/missing") (str "part.dxf") = str "/tmp/missing/part.dxf" := by decide

theorem sanitize_eq (name : Str) :
    sanitize_folder_name name =
      if name = [] then []
      else
        pyStrip (fun c => c == '_' || c == '-')
          (collapseRuns '-' (collapseRuns '_'
            (((pyStrip isPyWs name).map fun c => if c == ' ' then '-' else c).map
              fun c => if isAllowedChar c then c else '_'))) := rfl

theorem dropWhile_head?_not (p : Char → Bool) (l : Str) (c : Char)
    (h : (l.dropWhile p).head? = some c) : p c = false := by
  induction l with
  | nil => simp at h
  | cons a l ih =>
    rw [List.dropWhile_cons] at h
    by_cases hpa : p a = true
    · rw [if_pos hpa] at h
      exact ih h
    · rw [if_neg hpa] at h
      simp only [List.head?_cons, Option.some_inj] at h
      subst h
      simpa using hpa

theorem dropWhile_getLast? (p : Char → Bool) (l : Str)
    (h : l.dropWhile p ≠ []) : (l.dropWhile p).getLast? = l.getLast? := by
  induction l with
  | nil => simp at h
  | cons a l ih =>
    rw [List.dropWhile_cons] at h ⊢
    by_cases hpa : p a = true
    · rw [if_pos hpa] at h ⊢
      rw [ih h]
      have hl : l ≠ [] := by
        intro hnil
        rw [hnil] at h
        simp at h
      obtain ⟨b, l', rfl⟩ := List.exists_cons_of_ne_nil hl
      rw [List.getLast?_cons_cons]
    · rw [if_neg hpa]

theorem pyStrip_head?_not (p : Char → Bool) (s : Str) (c : Char)
    (h : (pyStrip p s).head? = some c) : p c = false := by
  unfold pyStrip at h
  rw [List.head?_reverse] at h
  by_cases hnil : (s.dropWhile p).reverse.dropWhile p = []
  · rw [hnil] at h
    simp at h
  · rw [dropWhile_getLast? p _ hnil, List.getLast?_reverse] at h
    exact dropWhile_head?_not p s c h

theorem pyStrip_getLast?_not (p : Char → Bool) (s : Str) (c : Char)
    (h : (pyStrip p s).getLast? = some c) : p c = false := by
  unfold pyStrip at h
  rw [List.getLast?_reverse] at h
  exact dropWhile_head?_not p _ c h

theorem pyStrip_infix (p : Char → Bool) (s : Str) :
    ∃ u v, s = u ++ pyStrip p s ++ v := by
  have hA : pyStrip p s ++ ((s.dropWhile p).reverse.takeWhile p).reverse
      = s.dropWhile p := by
    unfold pyStrip
    rw [← List.reverse_append, List.takeWhile_append_dropWhile, List.reverse_reverse]
  refine ⟨s.takeWhile p, ((s.dropWhile p).reverse.takeWhile p).reverse, ?_⟩
  rw [List.append_assoc, hA, List.takeWhile_append_dropWhile]

theorem pyStrip_all (p q : Char → Bool) (l : Str) (h : l.all q = true) :
    (pyStrip p l).all q = true := by
  obtain ⟨u, v, huv⟩ := pyStrip_infix p l
  rw [huv] at h
  simp only [List.all_append, Bool.and_eq_true] at h
  exact h.1.2

theorem noDouble_tail (t a : Char) (l : Str)
    (h : noDouble t (a :: l) = true) : noDouble t l = true := by
  cases l with
  | nil => rfl
  | cons b r =>
    simp only [noDouble, Bool.and_eq_true] at h
    exact h.2

theorem noDouble_cons (t a : Char) (l : Str)
    (hhd : ∀ b, l.head? = some b → (a == t && b == t) = false)
    (h : noDouble t l = true) : noDouble t (a :: l) = true := by
  cases l with
  | nil => rfl
  | cons b r =>
    simp only [noDouble, Bool.and_eq_true]
    refine ⟨?_, h⟩
    rw [hhd b rfl]
    rfl

theorem noDouble_append_right (t : Char) (xs ys : Str)
    (h : noDouble t (xs ++ ys) = true) : noDouble t ys = true := by
  induction xs with
  | nil => exact h
  | cons a xs ih => exact ih (noDouble_tail t a (xs ++ ys) h)

theorem noDouble_append_left (t : Char) (xs ys : Str)
    (h : noDouble t (xs ++ ys) = true) : noDouble t xs = true := by
  induction xs with
  | nil => rfl
  | cons a xs ih =>
    cases xs with
    | nil => rfl
    | cons b r =>
      simp only [List.cons_append, noDouble, Bool.and_eq_true] at h
      simp only [noDouble, Bool.and_eq_true]
      exact ⟨h.1, ih (by simp only [List.cons_append]; exact h.2)⟩

theorem collapseRuns_all (t : Char) (q : Char → Bool) (l : Str)
    (h : l.all q = true) : (collapseRuns t l).all q = true := by
  induction l with
  | nil => exact h
  | cons a l ih =>
    cases l with
    | nil => exact h
    | cons b r =>
      rw [collapseRuns]
      simp only [List.all_cons, Bool.and_eq_true] at h
      by_cases hab : (a == t && b == t) = true
      · rw [if_pos hab]
        exact ih (by simp only [List.all_cons, Bool.and_eq_true]; exact h.2)
      · rw [if_neg hab]
        simp only [List.all_cons, Bool.and_eq_true]
        refine ⟨h.1, ?_⟩
        have := ih (by simp only [List.all_cons, Bool.and_eq_true]; exact h.2)
        simpa using this

theorem collapseRuns_head? (t : Char) (l : Str) (a : Char) :
    (collapseRuns t (a :: l)).head? = some a := by
  induction l generalizing a with
  | nil => rfl
  | cons b r ih =>
    rw [collapseRuns]
    by_cases hab : (a == t && b == t) = true
    · rw [if_pos hab]
      rw [ih b]
      simp only [Bool.and_eq_true, beq_iff_eq] at hab
      rw [hab.1, hab.2]
    · rw [if_neg hab]
      rfl

theorem collapseRuns_noDouble (t : Char) (l : Str) :
    noDouble t (collapseRuns t l) = true := by
  induction l with
  | nil => rfl
  | cons a l ih =>
    cases l with
    | nil => rfl
    | cons b r =>
      rw [collapseRuns]
      by_cases hab : (a == t && b == t) = true
      · rw [if_pos hab]
        exact ih
      · rw [if_neg hab]
        refine noDouble_cons t a _ ?_ ih
        intro c hc
        rw [collapseRuns_head? t r b, Option.some_inj] at hc
        subst hc
        simpa using hab

theorem collapseRuns_preserve_noDouble (t u : Char) (l : Str)
    (h : noDouble u l = true) : noDouble u (collapseRuns t l) = true := by
  induction l with
  | nil => rfl
  | cons a l ih =>
    cases l with
    | nil => rfl
    | cons b r =>
      rw [collapseRuns]
      have htail : noDouble u (b :: r) = true := noDouble_tail u a (b :: r) h
      simp only [noDouble, Bool.and_eq_true] at h
      by_cases hab : (a == t && b == t) = true
      · rw [if_pos hab]
        exact ih htail
      · rw [if_neg hab]
        refine noDouble_cons u a _ ?_ (ih htail)
        intro c hc
        rw [collapseRuns_head? t r b, Option.some_inj] at hc
        subst hc
        have h1 := h.1
        rwa [Bool.not_eq_true'] at h1

theorem collapseRuns_of_noDouble (t : Char) (l : Str)
    (h : noDouble t l = true) : collapseRuns t l = l := by
  induction l with
  | nil => rfl
  | cons a l ih =>
    cases l with
    | nil => rfl
    | cons b r =>
      rw [collapseRuns]
      simp only [noDouble, Bool.and_eq_true] at h
      have h1 := h.1
      rw [Bool.not_eq_true'] at h1
      rw [if_neg (by rw [h1]; decide)]
      rw [ih h.2]

theorem ws_not_allowed (c : Char) (h : isPyWs c = true) : isAllowedChar c = false := by
  simp only [isPyWs, Bool.or_eq_true, beq_iff_eq] at h
  rcases h with ((((rfl | rfl) | rfl) | rfl) | rfl) | rfl <;> decide

theorem allowed_not_ws (c : Char) (h : isAllowedChar c = true) : isPyWs c = false := by
  cases hw : isPyWs c
  · rfl
  · rw [ws_not_allowed c hw] at h
    exact absurd h (by decide)

theorem allowed_not_space (c : Char) (h : isAllowedChar c = true) : (c == ' ') = false := by
  cases hc : c == ' '
  · rfl
  · rw [beq_iff_eq] at hc
    subst hc
    exact absurd h (by decide)

theorem map_id_of_forall (f : Char → Char) (l : Str)
    (h : ∀ c ∈ l, f c = c) : l.map f = l := by
  induction l with
  | nil => rfl
  | cons a l ih =>
    rw [List.map_cons, h a (by simp), ih (fun c hc => h c (by simp [hc]))]

theorem map_clean_all (l : Str) :
    (l.map fun c => if isAllowedChar c then c else '_').all isAllowedChar = true := by
  rw [List.all_eq_true]
  intro x hx
  rw [List.mem_map] at hx
  obtain ⟨c, _, rfl⟩ := hx
  by_cases h : isAllowedChar c = true
  · rw [if_pos h]
    exact h
  · rw [if_neg h]
    decide

theorem sanitize_all_allowed (s : Str) :
    (sanitize_folder_name s).all isAllowedChar = true := by
  rw [sanitize_eq]
  by_cases hs : s = []
  · rw [if_pos hs]
    rfl
  · rw [if_neg hs]
    exact pyStrip_all _ _ _ (collapseRuns_all _ _ _ (collapseRuns_all _ _ _ (map_clean_all _)))

theorem sanitize_head?_ok (s : Str) (c : Char)
    (h : (sanitize_folder_name s).head? = some c) : (c == '_' || c == '-') = false := by
  rw [sanitize_eq] at h
  by_cases hs : s = []
  · rw [if_pos hs] at h
    simp at h
  · rw [if_neg hs] at h
    exact pyStrip_head?_not _ _ _ h

theorem sanitize_getLast?_ok (s : Str) (c : Char)
    (h : (sanitize_folder_name s).getLast? = some c) : (c == '_' || c == '-') = false := by
  rw [sanitize_eq] at h
  by_cases hs : s = []
  · rw [if_pos hs] at h
    simp at h
  · rw [if_neg hs] at h
    exact pyStrip_getLast?_not _ _ _ h

theorem sanitize_noDouble_und (s : Str) :
    noDouble '_' (sanitize_folder_name s) = true := by
  rw [sanitize_eq]
  by_cases hs : s = []
  · rw [if_pos hs]
    rfl
  · rw [if_neg hs]
    obtain ⟨u, v, huv⟩ := pyStrip_infix (fun c => c == '_' || c == '-')
      (collapseRuns '-' (collapseRuns '_'
        (((pyStrip isPyWs s).map fun c => if c == ' ' then '-' else c).map
          fun c => if isAllowedChar c then c else '_')))
    have hbase : noDouble '_' (collapseRuns '-' (collapseRuns '_'
        (((pyStrip isPyWs s).map fun c => if c == ' ' then '-' else c).map
          fun c => if isAllowedChar c then c else '_'))) = true :=
      collapseRuns_preserve_noDouble '-' '_' _ (collapseRuns_noDouble '_' _)
    rw [huv] at hbase
    exact noDouble_append_right '_' u _ (noDouble_append_left '_' _ v hbase)

theorem sanitize_noDouble_hyp (s : Str) :
    noDouble '-' (sanitize_folder_name s) = true := by
  rw [sanitize_eq]
  by_cases hs : s = []
  · rw [if_pos hs]
    rfl
  · rw [if_neg hs]
    obtain ⟨u, v, huv⟩ := pyStrip_infix (fun c => c == '_' || c == '-')
      (collapseRuns '-' (collapseRuns '_'
        (((pyStrip isPyWs s).map fun c => if c == ' ' then '-' else c).map
          fun c => if isAllowedChar c then c else '_')))
    have hbase : noDouble '-' (collapseRuns '-' (collapseRuns '_'
        (((pyStrip isPyWs s).map fun c => if c == ' ' then '-' else c).map
          fun c => if isAllowedChar c then c else '_'))) = true :=
      collapseRuns_noDouble '-' _
    rw [huv] at hbase
    exact noDouble_append_right '-' u _ (noDouble_append_left '-' _ v hbase)

theorem dropWhile_eq_self (p : Char → Bool) (l : Str)
    (h : ∀ c, l.head? = some c → p c = false) : l.dropWhile p = l := by
  cases l with
  | nil => rfl
  | cons a l =>
    rw [List.dropWhile_cons, if_neg (by rw [h a rfl]; decide)]

theorem pyStrip_eq_self (p : Char → Bool) (l : Str)
    (hh : ∀ c, l.head? = some c → p c = false)
    (hl : ∀ c, l.getLast? = some c → p c = false) : pyStrip p l = l := by
  unfold pyStrip
  rw [dropWhile_eq_self p l hh]
  rw [dropWhile_eq_self p l.reverse
    (fun c hc => hl c (by rwa [List.head?_reverse] at hc))]
  exact List.reverse_reverse l

theorem sanitize_fixpoint (o : Str)
    (hall : o.all isAllowedChar = true)
    (hh : ∀ c, o.head? = some c → (c == '_' || c == '-') = false)
    (hl : ∀ c, o.getLast? = some c → (c == '_' || c == '-') = false)
    (hu : noDouble '_' o = true)
    (hd : noDouble '-' o = true) :
    sanitize_folder_name o = o := by
  by_cases ho : o = []
  · subst ho
    rfl
  · rw [sanitize_eq, if_neg ho]
    have hmem : ∀ c ∈ o, isAllowedChar c = true := List.all_eq_true.mp hall
    have h1 : pyStrip isPyWs o = o := by
      refine pyStrip_eq_self isPyWs o ?_ ?_
      · intro c hc
        exact allowed_not_ws c (hmem c (List.mem_of_mem_head? (by simp [hc])))
      · intro c hc
        exact allowed_not_ws c (hmem c (List.mem_of_mem_getLast? (by simp [hc])))
    rw [h1]
    have h2 : (o.map fun c => if c == ' ' then '-' else c) = o := by
      refine map_id_of_forall _ o fun c hc => ?_
      rw [if_neg (by rw [allowed_not_space c (hmem c hc)]; decide)]
    rw [h2]
    have h3 : (o.map fun c => if isAllowedChar c then c else '_') = o := by
      refine map_id_of_forall _ o fun c hc => ?_
      rw [if_pos (hmem c hc)]
    rw [h3]
    rw [collapseRuns_of_noDouble '_' o hu, collapseRuns_of_noDouble '-' o hd]
    exact pyStrip_eq_self _ o hh hl

theorem sanitize_eq_specSpace (s : Str) :
    sanitize_folder_name s = sanitizeSpecSpace s := by
  by_cases hs : s = []
  · subst hs
    decide
  · rw [sanitize_eq, if_neg hs]
    rfl

/-- C2 counterexample: the claim mandates that interior whitespace be
replaced with hyphens, but sanitize_folder_name only maps the space
character; an interior tab falls through to the character-class rule and
becomes an underscore.  sanitizeClaimC2 is the claim wording applied to
the same input. -/
theorem c2_counterexample_interior_tab :
    sanitize_folder_name (str "a\tb") = str "a_b" ∧
    sanitizeClaimC2 (str "a\tb") = str "a-b" ∧
    sanitize_folder_name (str "a\tb") ≠ sanitizeClaimC2 (str "a\tb") := by
  decide

/-- C2 amended: every sanitizer output contains only characters in
[A-Za-z0-9_-], never starts or ends with an underscore or hyphen, has no
run of two or more underscores or of two or more hyphens, and equals the
pipeline that maps interior spaces to hyphens and every other character
outside the permitted set (other whitespace included) to an underscore,
collapses runs and strips the edges. -/
theorem c2_amended_sanitizer_invariants (s : Str) :
    (sanitize_folder_name s).all isAllowedChar = true ∧
    (∀ c, (sanitize_folder_name s).head? = some c → (c == '_' || c == '-') = false) ∧
    (∀ c, (sanitize_folder_name s).getLast? = some c → (c == '_' || c == '-') = false) ∧
    noDouble '_' (sanitize_folder_name s) = true ∧
    noDouble '-' (sanitize_folder_name s) = true ∧
    sanitize_folder_name s = sanitizeSpecSpace s :=
  ⟨sanitize_all_allowed s, sanitize_head?_ok s, sanitize_getLast?_ok s,
    sanitize_noDouble_und s, sanitize_noDouble_hyp s, sanitize_eq_specSpace s⟩

/-- C3: the sanitizer is idempotent — its output satisfies all the
invariants that make every pipeline stage the identity, so sanitizing a
second time returns the output unchanged. -/
theorem c3_sanitize_idempotent (s : Str) :
    sanitize_folder_name (sanitize_folder_name s) = sanitize_folder_name s :=
  sanitize_fixpoint (sanitize_folder_name s) (sanitize_all_allowed s)
    (sanitize_head?_ok s) (sanitize_getLast?_ok s)
    (sanitize_noDouble_und s) (sanitize_noDouble_hyp s)

theorem process_row_of_eligible (env : Env) (endpoint bucket now : Str)
    (rowId : Int) (f : RowFields) (h : eligible f) :
    process_row env endpoint bucket now rowId f =
      process_eligible_row env endpoint bucket now rowId f := by
  obtain ⟨h1, h2, h3, h4, h5, h6⟩ := h
  simp [process_row, h1, h2, h3, h4, h5, h6]

theorem run_rows_cons (step : Int → RowFields → RowOutcome)
    (rid : Int) (f : RowFields) (rest : List (Int × RowFields)) :
    run_rows step ((rid, f) :: rest) =
      (if (step rid f).raised then step rid f
       else ⟨(step rid f).effs ++ (run_rows step rest).effs, (run_rows step rest).raised⟩) := by
  rfl

/-- C7: a row whose Ready field is not exactly the sentinel 1 is skipped
with no upload attempt and no write-back call: its loop body produces an
empty effect trace and raises nothing, and a run over the remaining rows
is exactly the run without that row. -/
theorem c7_not_ready_no_side_effect (env : Env) (endpoint bucket now : Str)
    (rowId : Int) (f : RowFields) (rest : List (Int × RowFields))
    (h : f.ready ≠ some 1) :
    process_row env endpoint bucket now rowId f = ⟨[], false⟩ ∧
    process_parts env endpoint bucket now ((rowId, f) :: rest) =
      process_parts env endpoint bucket now rest := by
  have hrow : process_row env endpoint bucket now rowId f = ⟨[], false⟩ := by
    simp [process_row, h]
  exact ⟨hrow, by simp [process_parts, run_rows_cons, hrow]⟩

/-- C7 witness: ready 0 on an otherwise fully processable row. -/
theorem c7_not_ready_no_side_effect_witness :
    rowNotReady.ready ≠ some 1 ∧
    (process_row envAllOk (str "minio.local") (str "dxf") (str "T0") 1 rowNotReady
        = ⟨[], false⟩ ∧
     process_parts envAllOk (str "minio.local") (str "dxf") (str "T0") [(1, rowNotReady)]
        = process_parts envAllOk (str "minio.local") (str "dxf") (str "T0") []) :=
  ⟨by decide,
   c7_not_ready_no_side_effect envAllOk (str "minio.local") (str "dxf") (str "T0")
     1 rowNotReady [] (by decide)⟩

/-- C8: a row whose Upload_Status already equals success after
lower-casing is skipped before any upload or PATCH: empty effect trace,
nothing raised, and the run is unchanged by the row. -/
theorem c8_already_success_skipped (env : Env) (endpoint bucket now : Str)
    (rowId : Int) (f : RowFields) (rest : List (Int × RowFields))
    (h : statusLower f = str "success") :
    process_row env endpoint bucket now rowId f = ⟨[], false⟩ ∧
    process_parts env endpoint bucket now ((rowId, f) :: rest) =
      process_parts env endpoint bucket now rest := by
  have hrow : process_row env endpoint bucket now rowId f = ⟨[], false⟩ := by
    simp [process_row, h]
  exact ⟨hrow, by simp [process_parts, run_rows_cons, hrow]⟩

/-- C8 witness: a row already marked Success (mixed case) is skipped. -/
theorem c8_already_success_skipped_witness :
    statusLower rowDone = str "success" ∧
    (process_row envAllOk (str "minio.local") (str "dxf") (str "T0") 1 rowDone
        = ⟨[], false⟩ ∧
     process_parts envAllOk (str "minio.local") (str "dxf") (str "T0") [(1, rowDone)]
        = process_parts envAllOk (str "minio.local") (str "dxf") (str "T0") []) :=
  ⟨by decide,
   c8_already_success_skipped envAllOk (str "minio.local") (str "dxf") (str "T0")
     1 rowDone [] (by decide)⟩

/-- C6: an eligible row whose joined local path is not an existing file
gets exactly the write-back Upload_Status File Not Found with UploadedOn
null, no upload attempt, and the run continues with the next rows.  The
loop body is a pure function of the row and the environment, so a re-run
with the file still absent repeats the identical write-back. -/
theorem c6_file_not_found_writeback (env : Env) (endpoint bucket now : Str)
    (rowId : Int) (f : RowFields) (rest : List (Int × RowFields))
    (h : eligible f)
    (hfile : env.isFile (localPathOf f) = false)
    (hpatch : env.patchRaises rowId fnfFields = false) :
    process_row env endpoint bucket now rowId f =
      ⟨[Eff.patch rowId ⟨ str "File Not Found", none, none⟩], false⟩ ∧
    process_parts env endpoint bucket now ((rowId, f) :: rest) =
      ⟨Eff.patch rowId fnfFields :: (process_parts env endpoint bucket now rest).effs,
        (process_parts env endpoint bucket now rest).raised⟩ := by
  have hrow : process_row env endpoint bucket now rowId f =
      ⟨[Eff.patch rowId fnfFields], false⟩ := by
    rw [process_row_of_eligible env endpoint bucket now rowId f h]
    simp [process_eligible_row, hfile, hpatch]
  exact ⟨hrow, by simp [process_parts, run_rows_cons, hrow]⟩

/-- C6 witness: the spec idempotence scenario with the file absent. -/
theorem c6_file_not_found_writeback_witness :
    eligible rowOk ∧
    envNoFile.isFile (localPathOf rowOk) = false ∧
    envNoFile.patchRaises 1 fnfFields = false ∧
    (process_row envNoFile (str "minio.local") (str "dxf") (str "T0") 1 rowOk
        = ⟨[Eff.patch 1 ⟨ str "File Not Found", none, none⟩], false⟩ ∧
     process_parts envNoFile (str "minio.local") (str "dxf") (str "T0") [(1, rowOk)]
        = ⟨Eff.patch 1 fnfFields ::
            (process_parts envNoFile (str "minio.local") (str "dxf") (str "T0") []).effs,
           (process_parts envNoFile (str "minio.local") (str "dxf") (str "T0") []).raised⟩) :=
  ⟨by decide, by decide, by decide,
   c6_file_not_found_writeback envNoFile (str "minio.local") (str "dxf") (str "T0")
     1 rowOk [] (by decide) (by decide) (by decide)⟩

/-- C4: when the upload raises, the exception is caught inside the loop
body, the row is written back with Upload_Status Failed and UploadedOn
null, nothing escapes, and the run continues with the next rows. -/
theorem c4_upload_exception_isolated (env : Env) (endpoint bucket now : Str)
    (rowId : Int) (f : RowFields) (rest : List (Int × RowFields))
    (h : eligible f)
    (hfile : env.isFile (localPathOf f) = true)
    (hup : env.uploadRaises (destKeyOf f) (localPathOf f) = true)
    (hpatch : env.patchRaises rowId failedFields = false) :
    process_row env endpoint bucket now rowId f =
      ⟨[Eff.uploadAttempt bucket (destKeyOf f) (localPathOf f),
        Eff.patch rowId ⟨ str "Failed", none, none⟩], false⟩ ∧
    process_parts env endpoint bucket now ((rowId, f) :: rest) =
      ⟨Eff.uploadAttempt bucket (destKeyOf f) (localPathOf f) ::
        Eff.patch rowId failedFields ::
        (process_parts env endpoint bucket now rest).effs,
        (process_parts env endpoint bucket now rest).raised⟩ := by
  have hrow : process_row env endpoint bucket now rowId f =
      ⟨[Eff.uploadAttempt bucket (destKeyOf f) (localPathOf f),
        Eff.patch rowId failedFields], false⟩ := by
    rw [process_row_of_eligible env endpoint bucket now rowId f h]
    simp [process_eligible_row, hfile, hup, hpatch]
  exact ⟨hrow, by simp [process_parts, run_rows_cons, hrow]⟩

/-- C4 witness: the object-store client raises during upload of rowOk. -/
theorem c4_upload_exception_isolated_witness :
    eligible rowOk ∧
    envUploadRaises.isFile (localPathOf rowOk) = true ∧
    envUploadRaises.uploadRaises (destKeyOf rowOk) (localPathOf rowOk) = true ∧
    envUploadRaises.patchRaises 1 failedFields = false ∧
    (process_row envUploadRaises (str "minio.local") (str "dxf") (str "T0") 1 rowOk
        = ⟨[Eff.uploadAttempt (str "dxf") (destKeyOf rowOk) (localPathOf rowOk),
            Eff.patch 1 ⟨ str "Failed", none, none⟩], false⟩ ∧
     process_parts envUploadRaises (str "minio.local") (str "dxf") (str "T0") [(1, rowOk)]
        = ⟨Eff.uploadAttempt (str "dxf") (destKeyOf rowOk) (localPathOf rowOk) ::
            Eff.patch 1 failedFields ::
            (process_parts envUploadRaises (str "minio.local") (str "dxf") (str "T0") []).effs,
           (process_parts envUploadRaises (str "minio.local") (str "dxf") (str "T0") []).raised⟩) :=
  ⟨by decide, by decide, by decide, by decide,
   c4_upload_exception_isolated envUploadRaises (str "minio.local") (str "dxf") (str "T0")
     1 rowOk [] (by decide) (by decide) (by decide) (by decide)⟩

/-- C5 counterexample: in src/upload_dxf_to_minio.py the success PATCH
sits inside the try block (lines 207-218), so a success-status PATCH
that raises is caught by the except clause and re-interpreted as an
upload failure.  Here exactly the Success PATCH raises, yet the run
finishes without an escaping exception and the row ends with a Failed
write-back, refuting that every PATCH exception propagates. -/
theorem c5_counterexample_success_patch_caught :
    envPatchSuccessRaises.patchRaises 1
      (successFields (urlOf (str "minio.local") (str "dxf") rowOk) (str "T0")) = true ∧
    process_parts envPatchSuccessRaises (str "minio.local") (str "dxf") (str "T0") [(1, rowOk)]
      = ⟨[Eff.uploadAttempt (str "dxf") (destKeyOf rowOk) (localPathOf rowOk),
          Eff.patch 1 (successFields (urlOf (str "minio.local") (str "dxf") rowOk) (str "T0")),
          Eff.patch 1 failedFields], false⟩ := by
  decide

/-- C5 amended: exceptions raised by the File Not Found PATCH and by the
Failed PATCH propagate and abort the run; an exception raised by the
success-status PATCH is caught by the surrounding upload try/except and
re-interpreted as an upload failure, triggering a Failed write-back, so
the run aborts only if that Failed PATCH raises as well. -/
theorem c5_amended_patch_fatality (env : Env) (endpoint bucket now : Str)
    (rowId : Int) (f : RowFields) (rest : List (Int × RowFields))
    (h : eligible f) :
    (env.isFile (localPathOf f) = false →
     env.patchRaises rowId fnfFields = true →
      process_parts env endpoint bucket now ((rowId, f) :: rest) =
        ⟨[Eff.patch rowId fnfFields], true⟩) ∧
    (env.isFile (localPathOf f) = true →
     env.uploadRaises (destKeyOf f) (localPathOf f) = true →
     env.patchRaises rowId failedFields = true →
      process_parts env endpoint bucket now ((rowId, f) :: rest) =
        ⟨[Eff.uploadAttempt bucket (destKeyOf f) (localPathOf f),
          Eff.patch rowId failedFields], true⟩) ∧
    (env.isFile (localPathOf f) = true →
     env.uploadRaises (destKeyOf f) (localPathOf f) = false →
     env.patchRaises rowId (successFields (urlOf endpoint bucket f) now) = true →
      (env.patchRaises rowId failedFields = true →
        process_parts env endpoint bucket now ((rowId, f) :: rest) =
          ⟨[Eff.uploadAttempt bucket (destKeyOf f) (localPathOf f),
            Eff.patch rowId (successFields (urlOf endpoint bucket f) now),
            Eff.patch rowId failedFields], true⟩) ∧
      (env.patchRaises rowId failedFields = false →
        process_parts env endpoint bucket now ((rowId, f) :: rest) =
          ⟨Eff.uploadAttempt bucket (destKeyOf f) (localPathOf f) ::
            Eff.patch rowId (successFields (urlOf endpoint bucket f) now) ::
            Eff.patch rowId failedFields ::
            (process_parts env endpoint bucket now rest).effs,
            (process_parts env endpoint bucket now rest).raised⟩)) := by
  have he := process_row_of_eligible env endpoint bucket now rowId f h
  refine ⟨?_, ?_, ?_⟩
  · intro hfile hp
    have hrow : process_row env endpoint bucket now rowId f =
        ⟨[Eff.patch rowId fnfFields], true⟩ := by
      rw [he]; simp [process_eligible_row, hfile, hp]
    simp [process_parts, run_rows_cons, hrow]
  · intro hfile hup hp
    have hrow : process_row env endpoint bucket now rowId f =
        ⟨[Eff.uploadAttempt bucket (destKeyOf f) (localPathOf f),
          Eff.patch rowId failedFields], true⟩ := by
      rw [he]; simp [process_eligible_row, hfile, hup, hp]
    simp [process_parts, run_rows_cons, hrow]
  · intro hfile hup hps
    constructor
    · intro hpf
      have hrow : process_row env endpoint bucket now rowId f =
          ⟨[Eff.uploadAttempt bucket (destKeyOf f) (localPathOf f),
            Eff.patch rowId (successFields (urlOf endpoint bucket f) now),
            Eff.patch rowId failedFields], true⟩ := by
        rw [he]; simp [process_eligible_row, hfile, hup, hps, hpf]
      simp [process_parts, run_rows_cons, hrow]
    · intro hpf
      have hrow : process_row env endpoint bucket now rowId f =
          ⟨[Eff.uploadAttempt bucket (destKeyOf f) (localPathOf f),
            Eff.patch rowId (successFields (urlOf endpoint bucket f) now),
            Eff.patch rowId failedFields], false⟩ := by
        rw [he]; simp [process_eligible_row, hfile, hup, hps, hpf]
      simp [process_parts, run_rows_cons, hrow]

/-- C5 amended witness: a missing file whose File Not Found PATCH raises
aborts the run. -/
theorem c5_amended_patch_fatality_witness :
    eligible rowOk ∧
    ((envNoFilePatchRaises.isFile (localPathOf rowOk) = false →
      envNoFilePatchRaises.patchRaises 1 fnfFields = true →
       process_parts envNoFilePatchRaises (str "minio.local") (str "dxf") (str "T0") [(1, rowOk)]
         = ⟨[Eff.patch 1 fnfFields], true⟩) ∧
     (envNoFilePatchRaises.isFile (localPathOf rowOk) = true →
      envNoFilePatchRaises.uploadRaises (destKeyOf rowOk) (localPathOf rowOk) = true →
      envNoFilePatchRaises.patchRaises 1 failedFields = true →
       process_parts envNoFilePatchRaises (str "minio.local") (str "dxf") (str "T0") [(1, rowOk)]
         = ⟨[Eff.uploadAttempt (str "dxf") (destKeyOf rowOk) (localPathOf rowOk),
             Eff.patch 1 failedFields], true⟩) ∧
     (envNoFilePatchRaises.isFile (localPathOf rowOk) = true →
      envNoFilePatchRaises.uploadRaises (destKeyOf rowOk) (localPathOf rowOk) = false →
      envNoFilePatchRaises.patchRaises 1
        (successFields (urlOf (str "minio.local") (str "dxf") rowOk) (str "T0")) = true →
       (envNoFilePatchRaises.patchRaises 1 failedFields = true →
         process_parts envNoFilePatchRaises (str "minio.local") (str "dxf") (str "T0") [(1, rowOk)]
           = ⟨[Eff.uploadAttempt (str "dxf") (destKeyOf rowOk) (localPathOf rowOk),
               Eff.patch 1 (successFields (urlOf (str "minio.local") (str "dxf") rowOk) (str "T0")),
               Eff.patch 1 failedFields], true⟩) ∧
       (envNoFilePatchRaises.patchRaises 1 failedFields = false →
         process_parts envNoFilePatchRaises (str "minio.local") (str "dxf") (str "T0") [(1, rowOk)]
           = ⟨Eff.uploadAttempt (str "dxf") (destKeyOf rowOk) (localPathOf rowOk) ::
               Eff.patch 1 (successFields (urlOf (str "minio.local") (str "dxf") rowOk) (str "T0")) ::
               Eff.patch 1 failedFields ::
               (process_parts envNoFilePatchRaises (str "minio.local") (str "dxf") (str "T0") []).effs,
               (process_parts envNoFilePatchRaises (str "minio.local") (str "dxf") (str "T0") []).raised⟩))) :=
  ⟨by decide,
   c5_amended_patch_fatality envNoFilePatchRaises (str "minio.local") (str "dxf") (str "T0")
     1 rowOk [] (by decide)⟩

/-- C9: in the revision stored as src/unnamed/part_000, every eligible
row that reaches the destination-path construction (local file present)
hits the unbound name safe_thk at line 197: the loop body raises before
any upload attempt or write-back and the exception aborts the run. -/
theorem c9_copy_revision_unbound_safe_thk (env : Env)
    (rowId : Int) (f : RowFields) (rest : List (Int × RowFields))
    (h : eligible f)
    (hfile : env.isFile (localPathOf f) = true) :
    process_row_copy env rowId f = ⟨[], true⟩ ∧
    process_parts_copy env ((rowId, f) :: rest) = ⟨[], true⟩ := by
  obtain ⟨h1, h2, h3, h4, h5, h6⟩ := h
  have hrow : process_row_copy env rowId f = ⟨[], true⟩ := by
    simp [process_row_copy, h1, h2, h3, h4, h5, h6, hfile]
  exact ⟨hrow, by simp [process_parts_copy, run_rows_cons, hrow]⟩

/-- C9 witness: rowOk with its file present crashes the copy revision. -/
theorem c9_copy_revision_unbound_safe_thk_witness :
    eligible rowOk ∧
    envAllOk.isFile (localPathOf rowOk) = true ∧
    (process_row_copy envAllOk 1 rowOk = ⟨[], true⟩ ∧
     process_parts_copy envAllOk [(1, rowOk)] = ⟨[], true⟩) :=
  ⟨by decide, by decide,
   c9_copy_revision_unbound_safe_thk envAllOk 1 rowOk [] (by decide) (by decide)⟩

/-- C10: when the Thickness column is null, str(thickness) yields the
literal text None, whose sanitized form is None itself, so the
destination key carries the segment /None/ and the upload proceeds to a
normal success write-back instead of skipping the row. -/
theorem c10_null_thickness_none_segment (env : Env) (endpoint bucket now : Str)
    (rowId : Int) (f : RowFields)
    (h : eligible f)
    (hth : f.thickness = none)
    (hfile : env.isFile (localPathOf f) = true)
    (hup : env.uploadRaises (destKeyOf f) (localPathOf f) = false)
    (hpatch : env.patchRaises rowId
      (successFields (urlOf endpoint bucket f) now) = false) :
    destKeyOf f =
      str "DXF/" ++ sanitize_folder_name (prodPfxOf f) ++ str "/None/" ++
        f.filename.getD [] ∧
    process_row env endpoint bucket now rowId f =
      ⟨[Eff.uploadAttempt bucket (destKeyOf f) (localPathOf f),
        Eff.patch rowId (successFields (urlOf endpoint bucket f) now)], false⟩ := by
  constructor
  · have hsan : sanitize_folder_name (pyStrOfOpt (none : Option Str)) = str "None" := by
      decide
    rw [destKeyOf, hth, hsan]
    simp only [List.append_assoc]
    rfl
  · rw [process_row_of_eligible env endpoint bucket now rowId f h]
    simp [process_eligible_row, hfile, hup, hpatch]

/-- C10 witness: rowOk with a null Thickness uploads under
DXF/Bracket-A/None/part.dxf. -/
theorem c10_null_thickness_none_segment_witness :
    eligible rowOkNoThk ∧
    rowOkNoThk.thickness = none ∧
    envAllOk.isFile (localPathOf rowOkNoThk) = true ∧
    envAllOk.uploadRaises (destKeyOf rowOkNoThk) (localPathOf rowOkNoThk) = false ∧
    envAllOk.patchRaises 1
      (successFields (urlOf (str "minio.local") (str "dxf") rowOkNoThk) (str "T0")) = false ∧
    (destKeyOf rowOkNoThk =
       str "DXF/" ++ sanitize_folder_name (prodPfxOf rowOkNoThk) ++ str "/None/" ++
         rowOkNoThk.filename.getD [] ∧
     process_row envAllOk (str "minio.local") (str "dxf") (str "T0") 1 rowOkNoThk =
       ⟨[Eff.uploadAttempt (str "dxf") (destKeyOf rowOkNoThk) (localPathOf rowOkNoThk),
         Eff.patch 1 (successFields (urlOf (str "minio.local") (str "dxf") rowOkNoThk)
           (str "T0"))], false⟩) :=
  ⟨by decide, by decide, by decide, by decide, by decide,
   c10_null_thickness_none_segment envAllOk (str "minio.local") (str "dxf") (str "T0")
     1 rowOkNoThk (by decide) (by decide) (by decide) (by decide) (by decide)⟩

/-- C1: an eligible row with product family Bracket A, thickness 3mm,
filename part.dxf and an existing local file is uploaded under the key
DXF/Bracket-A/3mm/part.dxf, which percent-encodes to itself, and is
written back with Upload_Status Success, MinioPath
http://ENDPOINT/BUCKET/DXF/Bracket-A/3mm/part.dxf and UploadedOn set to
now, the ISO-8601 timestamp taken at write-back time. -/
theorem c1_success_scenario (env : Env) (endpoint bucket now : Str)
    (rowId : Int) (fo : Str) (f : RowFields)
    (hr : f.ready = some 1)
    (hfl : f.uploadFlag = some (str "yes"))
    (hst : f.uploadStatus = some [])
    (hfn : f.filename = some (str "part.dxf"))
    (hfo : f.folderPath = some fo)
    (hne : fo.isEmpty = false)
    (hth : f.thickness = some (str "3mm"))
    (hpp : f.productPfx = some (str "Bracket A"))
    (hfile : env.isFile (ospath_join fo (str "part.dxf")) = true)
    (hup : env.uploadRaises (str "DXF/Bracket-A/3mm/part.dxf")
      (ospath_join fo (str "part.dxf")) = false)
    (hpatch : env.patchRaises rowId (successFields
      (str "http://" ++ endpoint ++ str "/" ++ bucket ++ str "/" ++
        str "DXF/Bracket-A/3mm/part.dxf") now) = false) :
    destKeyOf f = str "DXF/Bracket-A/3mm/part.dxf" ∧
    pyQuote (str "DXF/Bracket-A/3mm/part.dxf") = str "DXF/Bracket-A/3mm/part.dxf" ∧
    process_row env endpoint bucket now rowId f =
      ⟨[Eff.uploadAttempt bucket (str "DXF/Bracket-A/3mm/part.dxf")
          (ospath_join fo (str "part.dxf")),
        Eff.patch rowId
          ⟨ str "Success",
            some (str "http://" ++ endpoint ++ str "/" ++ bucket ++ str "/" ++
              str "DXF/Bracket-A/3mm/part.dxf"),
            some now⟩], false⟩ := by
  have hkey : destKeyOf f = str "DXF/Bracket-A/3mm/part.dxf" := by
    rw [destKeyOf, prodPfxOf, hth, hfn, hpp]
    decide
  have hq : pyQuote (str "DXF/Bracket-A/3mm/part.dxf") =
      str "DXF/Bracket-A/3mm/part.dxf" := by decide
  have hlp : localPathOf f = ospath_join fo (str "part.dxf") := by
    rw [localPathOf, hfo, hfn]
    rfl
  have hurl : urlOf endpoint bucket f =
      str "http://" ++ endpoint ++ str "/" ++ bucket ++ str "/" ++
        str "DXF/Bracket-A/3mm/part.dxf" := by
    rw [urlOf, hkey, hq]
  have helig : eligible f := by
    refine ⟨hr, ?_, ?_, ?_, ?_, ?_⟩
    · rw [flagLower, hfl]; decide
    · rw [statusLower, hst]; decide
    · rw [hfn]; decide
    · rw [pyFalsyStr.eq_def, hfo]; exact hne
    · rw [prodPfxOf, hpp]; decide
  refine ⟨hkey, hq, ?_⟩
  rw [process_row_of_eligible env endpoint bucket now rowId f helig]
  rw [process_eligible_row, hlp, hkey, hurl]
  rw [if_neg (by rw [hfile]; decide), if_neg (by rw [hup]; decide),
      if_neg (by rw [hpatch]; decide)]
  rfl

/-- C1 witness: the spec success scenario instantiated with folder /data
on a raising-free world. -/
theorem c1_success_scenario_witness :
    rowOk.ready = some 1 ∧
    rowOk.uploadFlag = some (str "yes") ∧
    rowOk.uploadStatus = some [] ∧
    rowOk.filename = some (str "part.dxf") ∧
    rowOk.folderPath = some (str "/data") ∧
    (str "/data").isEmpty = false ∧
    rowOk.thickness = some (str "3mm") ∧
    rowOk.productPfx = some (str "Bracket A") ∧
    envAllOk.isFile (ospath_join (str "/data") (str "part.dxf")) = true ∧
    envAllOk.uploadRaises (str "DXF/Bracket-A/3mm/part.dxf")
      (ospath_join (str "/data") (str "part.dxf")) = false ∧
    envAllOk.patchRaises 1 (successFields
      (str "http://" ++ str "minio.local" ++ str "/" ++ str "dxf" ++ str "/" ++
        str "DXF/Bracket-A/3mm/part.dxf") (str "T0")) = false ∧
    (destKeyOf rowOk = str "DXF/Bracket-A/3mm/part.dxf" ∧
     pyQuote (str "DXF/Bracket-A/3mm/part.dxf") = str "DXF/Bracket-A/3mm/part.dxf" ∧
     process_row envAllOk (str "minio.local") (str "dxf") (str "T0") 1 rowOk =
       ⟨[Eff.uploadAttempt (str "dxf") (str "DXF/Bracket-A/3mm/part.dxf")
           (ospath_join (str "/data") (str "part.dxf")),
         Eff.patch 1
           ⟨ str "Success",
             some (str "http://" ++ str "minio.local" ++ str "/" ++ str "dxf" ++ str "/" ++
               str "DXF/Bracket-A/3mm/part.dxf"),
             some (str "T0")⟩], false⟩) :=
  ⟨rfl, rfl, rfl, rfl, rfl, by decide, rfl, rfl, by decide, by decide, by decide,
   c1_success_scenario envAllOk (str "minio.local") (str "dxf") (str "T0")
     1 (str "/data") rowOk rfl rfl rfl rfl rfl (by decide) rfl rfl
     (by decide) (by decide) (by decide)⟩

end CNCW
